import Mathlib

/-!
Shallow embedding of `src/datasets/utils/glviewer.py` (the glumpy_viewer
mini-application): the command registry, the default key handlers, the
viewer state dictionary, and the `on_key_press` dispatch callback, together
with a step/run model of the event loop.

Modelling conventions:
* The Python state dict `{'pos', 'window', 'I', 'len'}` becomes the
  structure `GState`.  The `'window'` entry is an opaque handle of the
  external render target; no dispatch decision reads it, so it is omitted.
* Python integers are `Int`; Python `%` on ints with a positive modulus is
  `Int.emod` (both yield a result in `[0, n)` for `n > 0`).
* `state['len']` may be `None` (when `len(img_array)` raises `TypeError`
  at lines 86-89), hence `len : Option Int`.  `x % None` raises
  `TypeError`, and `x % 0` raises `ZeroDivisionError`; fallible handler
  code therefore returns `Except PyError`.
* `sys.exit()` in the `quit` handler raises `SystemExit`; any exception
  escaping a handler unwinds the glumpy main loop and ends the session,
  modelled by the `terminated` flag of `LoopState`.
* The frame source `img_array` is modelled as an indexing function
  `Int → α`; `glumpy.Image(x, cmap)` is the record `Image.mk x cmap`.
-/

namespace GLViewer

/-- Python exceptions that the embedded code can raise. -/
inductive PyError where
  /-- `AssertionError`, raised by the failed `assert` in `command`
  (the spec's error taxonomy names this condition `InvalidTriggerError`). -/
  | assertionError
  /-- `TypeError`, e.g. from `x % None` when `state['len']` is `None`. -/
  | typeError
  /-- `ZeroDivisionError`, from `x % 0`. -/
  | zeroDivisionError
  /-- `SystemExit`, raised by `sys.exit()`. -/
  | systemExit
deriving DecidableEq, Repr

/-- `glumpy.Image(data, cmap=cmap)`: the rendered payload held in
`state['I']`.  The colormap is an opaque handle. -/
structure Image (α : Type) where
  data : α
  cmap : Nat
deriving DecidableEq, Repr

/-- The viewer state dictionary (glviewer.py lines 91-96), minus the opaque
`'window'` handle. -/
structure GState (α : Type) where
  /-- `state['pos']`: current position in the image column. -/
  pos : Int
  /-- `state['len']`: `len(img_array)`, or `none` when `len` raised
  `TypeError` at construction. -/
  len : Option Int
  /-- `state['I']`: the `glumpy.Image` of the current column element. -/
  I : Image α
deriving DecidableEq, Repr

/-- A command handler: mutates the state, or raises. -/
def Handler (α : Type) : Type := GState α → Except PyError (GState α)

/-- A command table: the Python dict from one-character strings to
handlers (`_commands` and the `commands` argument of `glumpy_viewer`). -/
def Commands (α : Type) : Type := String → Option (Handler α)

/-- The empty dict `{}` (initial value of `_commands`). -/
def emptyCommands (α : Type) : Commands α := fun _ => none

/-- Python dict assignment `d[k] = v`: later writes shadow earlier ones. -/
def dictSet {β : Type} (d : String → Option β) (k : String) (v : β) :
    String → Option β :=
  fun c => if c = k then some v else d c

/-- `command(char)` applied to handler `f` over registry `d`
(glviewer.py lines 38-46): `assert type(char) == str and len(char) == 1`,
then `_commands[char] = f`.  A failing assert raises `AssertionError`
before the dict is touched. -/
def command {α : Type} (char : String) (f : Handler α) (d : Commands α) :
    Except PyError (Commands α) :=
  if char.length = 1 then .ok (dictSet d char f) else .error .assertionError

/-- `inc_pos` (lines 49-51): `state['pos'] = (state['pos'] + 1) % state['len']`. -/
def inc_pos {α : Type} (s : GState α) : Except PyError (GState α) :=
  match s.len with
  | none => .error .typeError
  | some n =>
      if n = 0 then .error .zeroDivisionError
      else .ok { s with pos := (s.pos + 1) % n }

/-- `dec_pos` (lines 54-56): `state['pos'] = (state['pos'] - 1) % state['len']`. -/
def dec_pos {α : Type} (s : GState α) : Except PyError (GState α) :=
  match s.len with
  | none => .error .typeError
  | some n =>
      if n = 0 then .error .zeroDivisionError
      else .ok { s with pos := (s.pos - 1) % n }

/-- `reset_pos` (lines 59-61): `state['pos'] = 0`. -/
def reset_pos {α : Type} (s : GState α) : Except PyError (GState α) :=
  .ok { s with pos := 0 }

/-- `quit` (lines 64-66): `sys.exit()` — raises `SystemExit` without
touching any state field. -/
def quit {α : Type} (_s : GState α) : Except PyError (GState α) :=
  .error .systemExit

/-- The module-level `_commands` dict after the four default registrations
`command('j') inc_pos`, `command('k') dec_pos`, `command('0') reset_pos`,
`command('q') quit` (lines 37-66). -/
def default_commands (α : Type) : Commands α :=
  dictSet (dictSet (dictSet (dictSet (emptyCommands α) "j" inc_pos)
    "k" dec_pos) "0" reset_pos) "q" quit

/-- Python's `chr`, restricted to symbols that are code points. -/
def chr (symbol : Char) : String := symbol.toString

/-- The observable outcome of one `on_key_press` callback that returned
normally. -/
structure KeyEffects (α β : Type) where
  /-- The viewer state when the callback returns. -/
  state : GState α
  /-- Whether `window.draw()` was requested (line 125). -/
  redraw : Bool
  /-- `some (chr symbol, modifiers)` iff the diagnostic
  `print 'unused key', chr(symbol), modifiers` ran (line 110). -/
  unused : Option (String × Nat)
  /-- `some (pos, vals)` iff line 124 printed the new position and the
  auxiliary array values at it. -/
  printed : Option (Int × List β)
deriving DecidableEq, Repr

/-- The `on_key_press` window callback (glviewer.py lines 107-125), for a
session whose active command table is `commands`, frame source `img_array`,
colormap `cmap`, and auxiliary arrays `arrays_to_print`.  An exception
raised by the handler propagates (`.error`). -/
def on_key_press {α β : Type} (commands : Commands α) (img_array : Int → α)
    (cmap : Nat) (arrays_to_print : List (Int → β))
    (symbol : Char) (modifiers : Nat) (s : GState α) :
    Except PyError (KeyEffects α β) :=
  match commands (chr symbol) with
  | none => .ok { state := s, redraw := false,
                  unused := some (chr symbol, modifiers), printed := none }
  | some f =>
      match f s with
      | .error e => .error e
      | .ok s2 =>
          if s.pos = s2.pos then
            .ok { state := s2, redraw := false, unused := none,
                  printed := none }
          else
            .ok { state := { s2 with I := ⟨img_array s2.pos, cmap⟩ },
                  redraw := true, unused := none,
                  printed := some (s2.pos,
                    arrays_to_print.map (fun o => o s2.pos)) }

/-- The state constructed by `glumpy_viewer` before entering the main loop
(lines 86-96): `pos = 0`, `I = glumpy.Image(img_array[0], cmap)`, and
`len = n_imgs` where `n_imgs` is `len(img_array)` or `none` when that
raised `TypeError`. -/
def glumpy_viewer_state {α : Type} (img_array : Int → α)
    (n_imgs : Option Int) (cmap : Nat) : GState α :=
  { pos := 0, len := n_imgs, I := ⟨img_array 0, cmap⟩ }

/-- The command table actually used for dispatch (lines 99-100):
`if commands is None: commands = _commands`. -/
def activeCommands {α : Type} (commands : Option (Commands α)) : Commands α :=
  match commands with
  | none => default_commands α
  | some c => c

/-- Modelled from the spec: the additive per-trigger merge of a
caller-supplied table over the built-in default set ("the merge is additive
with override semantics per trigger, not a full replacement of the default
set").  This definition follows the spec's words, for comparison with
`activeCommands`, and does not appear in the source. -/
def spec_merged_commands {α : Type} (c : Commands α) : Commands α :=
  fun k =>
    match c k with
    | some h => some h
    | none => default_commands α k

/-- The dispatch loop's status: the viewer state plus whether the main
loop has terminated (an exception escaped a callback). -/
structure LoopState (α : Type) where
  g : GState α
  terminated : Bool
deriving DecidableEq, Repr

/-- One key-press event delivered to the session: after termination no
callback runs; otherwise `on_key_press` runs, and an escaping exception
terminates the loop with the state as it was. -/
def stepKey {α β : Type} (commands : Commands α) (img_array : Int → α)
    (cmap : Nat) (arrays_to_print : List (Int → β))
    (symbol : Char) (modifiers : Nat) (ls : LoopState α) : LoopState α :=
  if ls.terminated then ls
  else
    match on_key_press commands img_array cmap arrays_to_print symbol
        modifiers ls.g with
    | .error _ => { g := ls.g, terminated := true }
    | .ok r => { g := r.state, terminated := false }

/-- A finite sequence of key-press events delivered in order
(modifiers 0). -/
def runKeys {α β : Type} (commands : Commands α) (img_array : Int → α)
    (cmap : Nat) (arrays_to_print : List (Int → β))
    (keys : List Char) (ls : LoopState α) : LoopState α :=
  keys.foldl (fun l k => stepKey commands img_array cmap arrays_to_print
    k 0 l) ls

/-! ### Basic reduction lemmas -/

lemma default_commands_j (α : Type) :
    default_commands α (chr 'j') = some inc_pos := rfl

lemma default_commands_k (α : Type) :
    default_commands α (chr 'k') = some dec_pos := rfl

lemma default_commands_zero (α : Type) :
    default_commands α (chr '0') = some reset_pos := rfl

lemma default_commands_q (α : Type) :
    default_commands α (chr 'q') = some quit := rfl

lemma inc_pos_eq {α : Type} (p N : Int) (i : Image α) (hN : N ≠ 0) :
    inc_pos ⟨p, some N, i⟩ = .ok ⟨(p + 1) % N, some N, i⟩ := by
  simp [inc_pos, hN]

lemma dec_pos_eq {α : Type} (p N : Int) (i : Image α) (hN : N ≠ 0) :
    dec_pos ⟨p, some N, i⟩ = .ok ⟨(p - 1) % N, some N, i⟩ := by
  simp [dec_pos, hN]

lemma on_key_press_matched {α β : Type} (commands : Commands α)
    (img_array : Int → α) (cmap : Nat) (arrays_to_print : List (Int → β))
    (symbol : Char) (modifiers : Nat) (s s2 : GState α) (f : Handler α)
    (hf : commands (chr symbol) = some f) (hs : f s = .ok s2) :
    on_key_press commands img_array cmap arrays_to_print symbol modifiers s =
      if s.pos = s2.pos then
        .ok { state := s2, redraw := false, unused := none, printed := none }
      else
        .ok { state := { s2 with I := ⟨img_array s2.pos, cmap⟩ },
              redraw := true, unused := none,
              printed := some (s2.pos,
                arrays_to_print.map (fun o => o s2.pos)) } := by
  simp only [on_key_press, hf, hs]

lemma on_key_press_unmatched {α β : Type} (commands : Commands α)
    (img_array : Int → α) (cmap : Nat) (arrays_to_print : List (Int → β))
    (symbol : Char) (modifiers : Nat) (s : GState α)
    (hf : commands (chr symbol) = none) :
    on_key_press commands img_array cmap arrays_to_print symbol modifiers s =
      .ok { state := s, redraw := false,
            unused := some (chr symbol, modifiers), printed := none } := by
  simp only [on_key_press, hf]

lemma on_key_press_raises {α β : Type} (commands : Commands α)
    (img_array : Int → α) (cmap : Nat) (arrays_to_print : List (Int → β))
    (symbol : Char) (modifiers : Nat) (s : GState α) (f : Handler α)
    (e : PyError) (hf : commands (chr symbol) = some f)
    (hs : f s = .error e) :
    on_key_press commands img_array cmap arrays_to_print symbol modifiers s =
      .error e := by
  simp only [on_key_press, hf, hs]

lemma runKeys_nil {α β : Type} (commands : Commands α) (img_array : Int → α)
    (cmap : Nat) (aux : List (Int → β)) (ls : LoopState α) :
    runKeys commands img_array cmap aux [] ls = ls := rfl

lemma runKeys_cons {α β : Type} (commands : Commands α) (img_array : Int → α)
    (cmap : Nat) (aux : List (Int → β)) (k : Char) (ks : List Char)
    (ls : LoopState α) :
    runKeys commands img_array cmap aux (k :: ks) ls =
      runKeys commands img_array cmap aux ks
        (stepKey commands img_array cmap aux k 0 ls) := rfl

lemma stepKey_of_terminated {α β : Type} (commands : Commands α)
    (img_array : Int → α) (cmap : Nat) (aux : List (Int → β))
    (k : Char) (m : Nat) (ls : LoopState α) (h : ls.terminated = true) :
    stepKey commands img_array cmap aux k m ls = ls := by
  simp [stepKey, h]

lemma runKeys_of_terminated {α β : Type} (commands : Commands α)
    (img_array : Int → α) (cmap : Nat) (aux : List (Int → β))
    (keys : List Char) (ls : LoopState α) (h : ls.terminated = true) :
    runKeys commands img_array cmap aux keys ls = ls := by
  induction keys with
  | nil => rfl
  | cons k ks ih =>
      rw [runKeys_cons, stepKey_of_terminated commands img_array cmap aux k 0 ls h]
      exact ih

/-! ### Modular arithmetic helpers -/

lemma emod_sub_one_emod (a N : Int) : (a % N - 1) % N = (a - 1) % N := by
  conv_lhs => rw [Int.sub_emod]
  rw [Int.emod_emod_of_dvd a (dvd_refl N), ← Int.sub_emod]

lemma emod_add_one_emod (a N : Int) : (a % N + 1) % N = (a + 1) % N := by
  conv_lhs => rw [Int.add_emod]
  rw [Int.emod_emod_of_dvd a (dvd_refl N), ← Int.add_emod]

lemma neg_one_emod (N : Int) (hN : 1 ≤ N) : (-1 : Int) % N = N - 1 := by
  have h1 : (-1 : Int) % N = (-1 + N * 1) % N :=
    (Int.add_mul_emod_self_left (-1) N 1).symm
  have h2 : (-1 : Int) + N * 1 = N - 1 := by ring
  rw [h1, h2, Int.emod_eq_of_lt (by omega) (by omega)]

/-! ### Single steps of the loop on the default advance/rewind commands -/

lemma stepKey_j {α β : Type} (img_array : Int → α) (cmap : Nat)
    (aux : List (Int → β)) (m : Nat) (p N : Int) (i : Image α)
    (hN : N ≠ 0) :
    stepKey (default_commands α) img_array cmap aux 'j' m ⟨⟨p, some N, i⟩, false⟩ =
      ⟨⟨(p + 1) % N, some N,
        if p = (p + 1) % N then i else ⟨img_array ((p + 1) % N), cmap⟩⟩,
       false⟩ := by
  have h1 := on_key_press_matched (default_commands α) img_array cmap aux
    'j' m ⟨p, some N, i⟩ ⟨(p + 1) % N, some N, i⟩ inc_pos
    (default_commands_j α) (inc_pos_eq p N i hN)
  simp only at h1
  by_cases hp : p = (p + 1) % N
  · rw [if_pos hp] at h1
    simp [stepKey, h1, if_pos hp]
  · rw [if_neg hp] at h1
    simp [stepKey, h1, if_neg hp]

lemma stepKey_k {α β : Type} (img_array : Int → α) (cmap : Nat)
    (aux : List (Int → β)) (m : Nat) (p N : Int) (i : Image α)
    (hN : N ≠ 0) :
    stepKey (default_commands α) img_array cmap aux 'k' m ⟨⟨p, some N, i⟩, false⟩ =
      ⟨⟨(p - 1) % N, some N,
        if p = (p - 1) % N then i else ⟨img_array ((p - 1) % N), cmap⟩⟩,
       false⟩ := by
  have h1 := on_key_press_matched (default_commands α) img_array cmap aux
    'k' m ⟨p, some N, i⟩ ⟨(p - 1) % N, some N, i⟩ dec_pos
    (default_commands_k α) (dec_pos_eq p N i hN)
  simp only at h1
  by_cases hp : p = (p - 1) % N
  · rw [if_pos hp] at h1
    simp [stepKey, h1, if_pos hp]
  · rw [if_neg hp] at h1
    simp [stepKey, h1, if_neg hp]

/-! ### The position invariant under advance/rewind sequences -/

/-- The invariant maintained by advance/rewind dispatch: the position is in
`[0, N)` and the state's length field is `N`. -/
def jkInv {α : Type} (N : Int) (ls : LoopState α) : Prop :=
  (0 ≤ ls.g.pos ∧ ls.g.pos < N) ∧ ls.g.len = some N

lemma jkInv_stepKey {α β : Type} (N : Int) (hN : 1 ≤ N) (img_array : Int → α)
    (cmap : Nat) (aux : List (Int → β)) (k : Char) (m : Nat)
    (hk : k = 'j' ∨ k = 'k') (ls : LoopState α) (h : jkInv N ls) :
    jkInv N (stepKey (default_commands α) img_array cmap aux k m ls) := by
  obtain ⟨⟨p, len, i⟩, term⟩ := ls
  obtain ⟨⟨h0, h1⟩, hlen⟩ := h
  simp only at h0 h1 hlen
  subst hlen
  have hNe : N ≠ 0 := by omega
  cases term with
  | true =>
      rw [stepKey_of_terminated _ _ _ _ _ _ _ rfl]
      exact ⟨⟨h0, h1⟩, rfl⟩
  | false =>
      rcases hk with rfl | rfl
      · rw [stepKey_j img_array cmap aux m p N i hNe]
        exact ⟨⟨Int.emod_nonneg _ hNe, Int.emod_lt_of_pos _ (by omega)⟩, rfl⟩
      · rw [stepKey_k img_array cmap aux m p N i hNe]
        exact ⟨⟨Int.emod_nonneg _ hNe, Int.emod_lt_of_pos _ (by omega)⟩, rfl⟩

lemma jkInv_runKeys {α β : Type} (N : Int) (hN : 1 ≤ N) (img_array : Int → α)
    (cmap : Nat) (aux : List (Int → β)) (keys : List Char)
    (hkeys : ∀ c ∈ keys, c = 'j' ∨ c = 'k') (ls : LoopState α)
    (h : jkInv N ls) :
    jkInv N (runKeys (default_commands α) img_array cmap aux keys ls) := by
  induction keys generalizing ls with
  | nil => exact h
  | cons k ks ih =>
      rw [runKeys_cons]
      exact ih (fun c hc => hkeys c (List.mem_cons_of_mem _ hc)) _
        (jkInv_stepKey N hN img_array cmap aux k 0
          (hkeys k (List.mem_cons_self _ _)) ls h)

lemma on_key_press_congr {α β : Type} (c1 c2 : Commands α)
    (img_array : Int → α) (cmap : Nat) (aux : List (Int → β))
    (symbol : Char) (modifiers : Nat) (s : GState α)
    (h : c1 (chr symbol) = c2 (chr symbol)) :
    on_key_press c1 img_array cmap aux symbol modifiers s =
      on_key_press c2 img_array cmap aux symbol modifiers s := by
  unfold on_key_press
  rw [h]

/-! ### Claim theorems -/

/-- Claim C1: for every frame-source length `N ≥ 1` and every finite
sequence of advance ('j') / rewind ('k') key-presses delivered from the
initial state `position = 0`, the position satisfies `0 ≤ position < N`
after every individual command (i.e. after every prefix of the sequence);
the range is maintained by modular wraparound — advance at `N - 1` wraps
to `0` and rewind at `0` wraps to `N - 1` — not by clamping. -/
theorem jk_commands_position_invariant {α β : Type} (img_array : Int → α)
    (cmap : Nat) (aux : List (Int → β)) (N : Int) (hN : 1 ≤ N)
    (i0 : Image α) (keys l1 l2 : List Char) (hsplit : keys = l1 ++ l2)
    (hjk : ∀ c ∈ keys, c = 'j' ∨ c = 'k') :
    (0 ≤ (runKeys (default_commands α) img_array cmap aux l1
        ⟨⟨0, some N, i0⟩, false⟩).g.pos ∧
      (runKeys (default_commands α) img_array cmap aux l1
        ⟨⟨0, some N, i0⟩, false⟩).g.pos < N) ∧
    (∀ s : GState α, s.len = some N → s.pos = N - 1 →
      inc_pos s = .ok { s with pos := 0 }) ∧
    (∀ s : GState α, s.len = some N → s.pos = 0 →
      dec_pos s = .ok { s with pos := N - 1 }) := by
  refine ⟨?_, ?_, ?_⟩
  · have h := jkInv_runKeys N hN img_array cmap aux l1
      (fun c hc => hjk c (hsplit ▸ List.mem_append_left l2 hc))
      ⟨⟨0, some N, i0⟩, false⟩ ⟨⟨le_refl 0, show (0 : Int) < N by omega⟩, rfl⟩
    exact h.1
  · intro s hlen hpos
    obtain ⟨p, len, i⟩ := s
    simp only at hlen hpos
    subst hlen; subst hpos
    rw [inc_pos_eq _ _ _ (by omega)]
    have h2 : (N - 1 + 1) % N = (0 : Int) := by
      have h3 : N - 1 + 1 = N := by ring
      rw [h3, Int.emod_self]
    simp [h2]
  · intro s hlen hpos
    obtain ⟨p, len, i⟩ := s
    simp only at hlen hpos
    subst hlen; subst hpos
    rw [dec_pos_eq _ _ _ (by omega)]
    have h2 : (-1 : Int) % N = N - 1 := neg_one_emod N hN
    simp [h2]

/-- Witness for C1 at `N = 2`, sequence `['j', 'k', 'j']`. -/
theorem jk_commands_position_invariant_witness :
    (0 ≤ (runKeys (default_commands Nat) (fun _ => 0) 0
        ([] : List (Int → Nat)) ['j', 'k', 'j']
        ⟨⟨0, some 2, ⟨0, 0⟩⟩, false⟩).g.pos ∧
      (runKeys (default_commands Nat) (fun _ => 0) 0
        ([] : List (Int → Nat)) ['j', 'k', 'j']
        ⟨⟨0, some 2, ⟨0, 0⟩⟩, false⟩).g.pos < 2) ∧
    inc_pos (⟨1, some 2, ⟨0, 0⟩⟩ : GState Nat) = .ok ⟨0, some 2, ⟨0, 0⟩⟩ ∧
    dec_pos (⟨0, some 2, ⟨0, 0⟩⟩ : GState Nat) = .ok ⟨1, some 2, ⟨0, 0⟩⟩ := by
  have h := jk_commands_position_invariant (fun _ => (0 : Nat)) 0
    ([] : List (Int → Nat)) 2 (by decide) ⟨0, 0⟩ ['j', 'k', 'j']
    ['j', 'k', 'j'] [] rfl (by decide)
  refine ⟨h.1, ?_, ?_⟩
  · have h2 := h.2.1 ⟨1, some 2, ⟨0, 0⟩⟩ rfl rfl
    simpa using h2
  · have h2 := h.2.2 ⟨0, some 2, ⟨0, 0⟩⟩ rfl rfl
    simpa using h2

/-- Claim C8: for every length `N ≥ 2` and every state whose position is
in `[0, N)`, advance then rewind (and rewind then advance) restores the
state exactly: `inc_pos` and `dec_pos` are mutual inverses there. -/
theorem advance_rewind_inverse {α : Type} (N : Int) (hN : 2 ≤ N)
    (s : GState α) (hlen : s.len = some N) (h0 : 0 ≤ s.pos)
    (h1 : s.pos < N) :
    (inc_pos s).bind dec_pos = .ok s ∧
    (dec_pos s).bind inc_pos = .ok s := by
  obtain ⟨p, len, i⟩ := s
  simp only at hlen h0 h1
  subst hlen
  have hNe : N ≠ 0 := by omega
  constructor
  · rw [inc_pos_eq p N i hNe]
    show dec_pos (⟨(p + 1) % N, some N, i⟩ : GState α) = _
    rw [dec_pos_eq _ N i hNe]
    have h2 : ((p + 1) % N - 1) % N = p := by
      rw [emod_sub_one_emod (p + 1) N]
      have h3 : p + 1 - 1 = p := by ring
      rw [h3, Int.emod_eq_of_lt h0 h1]
    simp [h2]
  · rw [dec_pos_eq p N i hNe]
    show inc_pos (⟨(p - 1) % N, some N, i⟩ : GState α) = _
    rw [inc_pos_eq _ N i hNe]
    have h2 : ((p - 1) % N + 1) % N = p := by
      rw [emod_add_one_emod (p - 1) N]
      have h3 : p - 1 + 1 = p := by ring
      rw [h3, Int.emod_eq_of_lt h0 h1]
    simp [h2]

/-- Witness for C8 at `N = 3`, `position = 1`. -/
theorem advance_rewind_inverse_witness :
    (inc_pos (⟨1, some 3, ⟨4, 0⟩⟩ : GState Nat)).bind dec_pos =
      .ok ⟨1, some 3, ⟨4, 0⟩⟩ ∧
    (dec_pos (⟨1, some 3, ⟨4, 0⟩⟩ : GState Nat)).bind inc_pos =
      .ok ⟨1, some 3, ⟨4, 0⟩⟩ :=
  advance_rewind_inverse 3 (by decide) _ rfl (by decide) (by decide)

/-- Claim C9: with `length == 1` every advance and rewind leaves the
position unchanged (modular wraparound over `[0, 1)` is the identity), so
dispatch of 'j' or 'k' through `on_key_press` recomputes no payload,
prints nothing, and requests no redraw. -/
theorem single_frame_advance_rewind_identity {α β : Type}
    (img_array : Int → α) (cmap : Nat) (aux : List (Int → β))
    (modifiers : Nat) (s : GState α) (hlen : s.len = some 1)
    (h0 : 0 ≤ s.pos) (h1 : s.pos < 1) :
    inc_pos s = .ok s ∧ dec_pos s = .ok s ∧
    on_key_press (default_commands α) img_array cmap aux 'j' modifiers s =
      .ok { state := s, redraw := false, unused := none, printed := none } ∧
    on_key_press (default_commands α) img_array cmap aux 'k' modifiers s =
      .ok { state := s, redraw := false, unused := none, printed := none } := by
  obtain ⟨p, len, i⟩ := s
  simp only at hlen h0 h1
  subst hlen
  have hp : p = 0 := by omega
  subst hp
  have e1 : ((0 : Int) + 1) % 1 = 0 := by decide
  have e2 : ((0 : Int) - 1) % 1 = 0 := by decide
  have hinc : inc_pos (⟨0, some 1, i⟩ : GState α) = .ok ⟨0, some 1, i⟩ := by
    rw [inc_pos_eq 0 1 i (by decide)]
    simp [e1]
  have hdec : dec_pos (⟨0, some 1, i⟩ : GState α) = .ok ⟨0, some 1, i⟩ := by
    rw [dec_pos_eq 0 1 i (by decide)]
    simp [e2]
  refine ⟨hinc, hdec, ?_, ?_⟩
  · rw [on_key_press_matched _ img_array cmap aux 'j' modifiers _ _ inc_pos
      (default_commands_j α) hinc]
    simp
  · rw [on_key_press_matched _ img_array cmap aux 'k' modifiers _ _ dec_pos
      (default_commands_k α) hdec]
    simp

/-- Witness for C9 at `length = 1`, `position = 0`. -/
theorem single_frame_advance_rewind_identity_witness :
    inc_pos (⟨0, some 1, ⟨7, 0⟩⟩ : GState Nat) = .ok ⟨0, some 1, ⟨7, 0⟩⟩ ∧
    dec_pos (⟨0, some 1, ⟨7, 0⟩⟩ : GState Nat) = .ok ⟨0, some 1, ⟨7, 0⟩⟩ ∧
    on_key_press (default_commands Nat) (fun _ => 5) 0
      ([] : List (Int → Nat)) 'j' 0 ⟨0, some 1, ⟨7, 0⟩⟩ =
      .ok { state := ⟨0, some 1, ⟨7, 0⟩⟩, redraw := false, unused := none,
            printed := none } ∧
    on_key_press (default_commands Nat) (fun _ => 5) 0
      ([] : List (Int → Nat)) 'k' 0 ⟨0, some 1, ⟨7, 0⟩⟩ =
      .ok { state := ⟨0, some 1, ⟨7, 0⟩⟩, redraw := false, unused := none,
            printed := none } :=
  single_frame_advance_rewind_identity (fun _ => 5) 0 ([] : List (Int → Nat))
    0 ⟨0, some 1, ⟨7, 0⟩⟩ rfl (by decide) (by decide)

/-- Claim C10: a frame source whose `len` raises `TypeError` still yields
a constructed session state, with `len = none` and `pos = 0`; the first
advance or rewind key-press then raises `TypeError` from the modulo
operation, so the position invariant is not maintained for length-less
sources. -/
theorem lengthless_source_typeerror {α β : Type} (img_array : Int → α)
    (cmap : Nat) (aux : List (Int → β)) (modifiers : Nat) :
    (glumpy_viewer_state img_array none cmap).len = none ∧
    (glumpy_viewer_state img_array none cmap).pos = 0 ∧
    on_key_press (default_commands α) img_array cmap aux 'j' modifiers
      (glumpy_viewer_state img_array none cmap) = .error .typeError ∧
    on_key_press (default_commands α) img_array cmap aux 'k' modifiers
      (glumpy_viewer_state img_array none cmap) = .error .typeError := by
  refine ⟨rfl, rfl, ?_, ?_⟩
  · exact on_key_press_raises _ img_array cmap aux 'j' modifiers _ inc_pos
      .typeError (default_commands_j α) rfl
  · exact on_key_press_raises _ img_array cmap aux 'k' modifiers _ dec_pos
      .typeError (default_commands_k α) rfl

/-- Claim C2: for every matched, non-quit key-press (the handler returns
normally with state `s2`), dispatch compares the new position to the old:
if unchanged, no redraw is requested and the payload is not recomputed;
if changed, the payload is recomputed as the rendering of
`img_array[position]` at the new position, the auxiliary array values at
the new position are printed, and exactly then a redraw is requested. -/
theorem redraw_iff_position_changed {α β : Type} (commands : Commands α)
    (img_array : Int → α) (cmap : Nat) (aux : List (Int → β))
    (symbol : Char) (modifiers : Nat) (s s2 : GState α) (f : Handler α)
    (hf : commands (chr symbol) = some f) (hs : f s = .ok s2) :
    (s.pos = s2.pos →
      on_key_press commands img_array cmap aux symbol modifiers s =
        .ok { state := s2, redraw := false, unused := none,
              printed := none }) ∧
    (s.pos ≠ s2.pos →
      on_key_press commands img_array cmap aux symbol modifiers s =
        .ok { state := { s2 with I := ⟨img_array s2.pos, cmap⟩ },
              redraw := true, unused := none,
              printed := some (s2.pos, aux.map (fun o => o s2.pos)) }) := by
  rw [on_key_press_matched commands img_array cmap aux symbol modifiers
    s s2 f hf hs]
  constructor
  · intro h; rw [if_pos h]
  · intro h; rw [if_neg h]

/-- Witness for C2: pressing 'j' at `position = 0`, `length = 2` changes
the position, recomputes the payload from the frame source, prints the
auxiliary values at the new position, and requests a redraw. -/
theorem redraw_iff_position_changed_witness :
    on_key_press (default_commands Nat) (fun _ => 5) 0
      ([] : List (Int → Nat)) 'j' 0 ⟨0, some 2, ⟨9, 0⟩⟩ =
      .ok { state := ⟨1, some 2, ⟨5, 0⟩⟩, redraw := true, unused := none,
            printed := some (1, []) } := by
  have h := redraw_iff_position_changed (default_commands Nat) (fun _ => 5)
    0 ([] : List (Int → Nat)) 'j' 0 ⟨0, some 2, ⟨9, 0⟩⟩ ⟨1, some 2, ⟨9, 0⟩⟩
    inc_pos (default_commands_j Nat)
    (by rw [inc_pos_eq 0 2 ⟨9, 0⟩ (by decide)]; rfl)
  have h2 := h.2 (by decide)
  simpa using h2

/-- Claim C3 counterexample: with the caller-supplied table `{}` the table
used for dispatch (`activeCommands`) binds nothing at "j", while the
spec's additive merge over the defaults still binds `inc_pos` there — so
the supplied table is not layered over the default set. -/
theorem commands_argument_merge_counterexample :
    activeCommands (some (emptyCommands Nat)) "j" = none ∧
    spec_merged_commands (emptyCommands Nat) "j" = some inc_pos ∧
    activeCommands (some (emptyCommands Nat)) ≠
      spec_merged_commands (emptyCommands Nat) := by
  refine ⟨rfl, rfl, ?_⟩
  intro h
  have h2 : (none : Option (Handler Nat)) = some inc_pos := congrFun h "j"
  exact Option.noConfusion h2

/-- Claim C3 amended: a caller-supplied commands table is used for
dispatch wholesale, fully replacing the built-in default set; the default
set is consulted only when no table is supplied. -/
theorem commands_argument_wholesale_replacement {α : Type}
    (c : Commands α) :
    activeCommands (some c) = c ∧
    activeCommands (α := α) none = default_commands α :=
  ⟨rfl, rfl⟩

/-- Claim C4: pressing 'q' invokes the quit handler, which mutates no
state field and raises `SystemExit`; the loop transitions to terminated
with the viewer state exactly as it was, and from a terminated loop no
subsequent key-press event is processed. -/
theorem quit_terminates_loop {α β : Type} (img_array : Int → α)
    (cmap : Nat) (aux : List (Int → β)) (modifiers : Nat)
    (ls : LoopState α) (hrun : ls.terminated = false) :
    quit ls.g = (.error .systemExit : Except PyError (GState α)) ∧
    stepKey (default_commands α) img_array cmap aux 'q' modifiers ls =
      { g := ls.g, terminated := true } ∧
    ∀ keys : List Char,
      runKeys (default_commands α) img_array cmap aux keys
          { g := ls.g, terminated := true } =
        { g := ls.g, terminated := true } := by
  refine ⟨rfl, ?_, fun keys => runKeys_of_terminated _ _ _ _ keys _ rfl⟩
  have h1 := on_key_press_raises (default_commands α) img_array cmap aux
    'q' modifiers ls.g quit .systemExit (default_commands_q α) rfl
  simp [stepKey, hrun, h1]

/-- Witness for C4: quitting from `position = 0`, `length = 1` terminates
the loop with the state intact, and the later 'j' and 'k' presses are not
processed. -/
theorem quit_terminates_loop_witness :
    quit (⟨0, some 1, ⟨3, 0⟩⟩ : GState Nat) = .error .systemExit ∧
    stepKey (default_commands Nat) (fun _ => 3) 0 ([] : List (Int → Nat))
      'q' 0 ⟨⟨0, some 1, ⟨3, 0⟩⟩, false⟩ = ⟨⟨0, some 1, ⟨3, 0⟩⟩, true⟩ ∧
    runKeys (default_commands Nat) (fun _ => 3) 0 ([] : List (Int → Nat))
      ['j', 'k'] ⟨⟨0, some 1, ⟨3, 0⟩⟩, true⟩ = ⟨⟨0, some 1, ⟨3, 0⟩⟩, true⟩ := by
  have h := quit_terminates_loop (fun _ => (3 : Nat)) 0
    ([] : List (Int → Nat)) 0 ⟨⟨0, some 1, ⟨3, 0⟩⟩, false⟩ rfl
  exact ⟨h.1, h.2.1, h.2.2 ['j', 'k']⟩

/-- Claim C5: registering with a trigger that is not exactly one character
fails with the registration error (`AssertionError`, the condition the
spec's taxonomy names `InvalidTriggerError`) before the table is touched;
the failure is a catchable value confined to the registration call, and a
one-character trigger registers normally. -/
theorem invalid_trigger_registration_fails {α : Type} (char : String)
    (hlen : char.length ≠ 1) (f : Handler α) (d : Commands α) :
    command char f d = .error .assertionError ∧
    ∀ good : String, good.length = 1 →
      command good f d = .ok (dictSet d good f) := by
  constructor
  · simp [command, hlen]
  · intro good hg
    simp [command, hg]

/-- Witness for C5: registering the two-character trigger "jk" fails,
while registering "r" succeeds. -/
theorem invalid_trigger_registration_fails_witness :
    command "jk" (reset_pos : Handler Nat) (default_commands Nat) =
      .error .assertionError ∧
    command "r" (reset_pos : Handler Nat) (default_commands Nat) =
      .ok (dictSet (default_commands Nat) "r" reset_pos) := by
  have h := invalid_trigger_registration_fails "jk" (by decide)
    (reset_pos : Handler Nat) (default_commands Nat)
  exact ⟨h.1, h.2 "r" (by decide)⟩

/-- Claim C6: a key-press with no matching trigger makes the callback
print the non-fatal 'unused key' diagnostic and do nothing else: the
state is returned unchanged (position and payload included), no redraw is
requested, and the loop stays running. -/
theorem unmatched_key_no_action {α β : Type} (commands : Commands α)
    (img_array : Int → α) (cmap : Nat) (aux : List (Int → β))
    (symbol : Char) (modifiers : Nat) (ls : LoopState α)
    (hrun : ls.terminated = false)
    (hmiss : commands (chr symbol) = none) :
    on_key_press commands img_array cmap aux symbol modifiers ls.g =
      .ok { state := ls.g, redraw := false,
            unused := some (chr symbol, modifiers), printed := none } ∧
    stepKey commands img_array cmap aux symbol modifiers ls =
      { g := ls.g, terminated := false } := by
  have h1 := on_key_press_unmatched commands img_array cmap aux symbol
    modifiers ls.g hmiss
  exact ⟨h1, by simp [stepKey, hrun, h1]⟩

/-- Witness for C6: 'x' is bound to no default command; pressing it only
prints the diagnostic and leaves the loop running with the state
unchanged. -/
theorem unmatched_key_no_action_witness :
    on_key_press (default_commands Nat) (fun _ => 1) 0
      ([] : List (Int → Nat)) 'x' 7 ⟨0, some 2, ⟨1, 0⟩⟩ =
      .ok { state := ⟨0, some 2, ⟨1, 0⟩⟩, redraw := false,
            unused := some (chr 'x', 7), printed := none } ∧
    stepKey (default_commands Nat) (fun _ => 1) 0 ([] : List (Int → Nat))
      'x' 7 ⟨⟨0, some 2, ⟨1, 0⟩⟩, false⟩ = ⟨⟨0, some 2, ⟨1, 0⟩⟩, false⟩ :=
  unmatched_key_no_action (default_commands Nat) (fun _ => 1) 0
    ([] : List (Int → Nat)) 'x' 7 ⟨⟨0, some 2, ⟨1, 0⟩⟩, false⟩ rfl rfl

/-- Claim C7: registering a handler for an already-registered trigger
silently replaces it: registering `H1` then `H2` on "j" raises no error,
the resulting table maps "j" to `H2` alone, and a 'j' key-press then
dispatches exactly as under a table holding only `H2` — last write
wins for the table used by every later lookup. -/
theorem reregistration_last_write_wins {α β : Type} (d : Commands α)
    (H1 H2 : Handler α) (img_array : Int → α) (cmap : Nat)
    (aux : List (Int → β)) (modifiers : Nat) (s : GState α) :
    (command "j" H1 d).bind (command "j" H2) =
      .ok (dictSet (dictSet d "j" H1) "j" H2) ∧
    (dictSet (dictSet d "j" H1) "j" H2) "j" = some H2 ∧
    on_key_press (dictSet (dictSet d "j" H1) "j" H2) img_array cmap aux
        'j' modifiers s =
      on_key_press (dictSet (emptyCommands α) "j" H2) img_array cmap aux
        'j' modifiers s :=
  ⟨rfl, rfl, on_key_press_congr _ _ img_array cmap aux 'j' modifiers s rfl⟩

end GLViewer
